import Mathlib

/-!
Shallow embedding of the quickscan device-eligibility scanner.

Strings that the source manipulates character by character are modelled as
`List Char`; strings used only as opaque keys (device node names, paths)
are modelled as `String`.  Python code that can raise is modelled with
`Except String`, the error string naming the Python exception class.
-/

namespace Quickscan

/-- Model of Python `s.split(sep)` for a one-character separator:
splitting the empty string yields one empty component, and consecutive
separators yield empty components, exactly as in Python. -/
def pySplit (sep : Char) : List Char → List (List Char)
  | [] => [[]]
  | c :: rest =>
    match pySplit sep rest with
    | [] => [[]]
    | h :: t => if c = sep then [] :: h :: t else (c :: h) :: t

/-- Model of Python dict assignment `d[k] = v`: an existing key is updated
in place (insertion order preserved), a new key is appended. -/
def dictInsert {κ ν : Type} [DecidableEq κ] (k : κ) (v : ν) :
    List (κ × ν) → List (κ × ν)
  | [] => [(k, v)]
  | (k₀, v₀) :: rest =>
    if k₀ = k then (k, v) :: rest else (k₀, v₀) :: dictInsert k v rest

/-- Model of Python `d.get(k)` on a dict (and of `getattr`/`hasattr` on an
object modelled as an attribute dict). -/
def pyGet {κ ν : Type} [DecidableEq κ] (k : κ) : List (κ × ν) → Option ν
  | [] => none
  | (k₀, v) :: rest => if k₀ = k then some v else pyGet k rest

/-- Model of Python `s.upper()`. -/
def pyUpper (s : List Char) : List Char := s.map Char.toUpper

/-- The Python exception class raised by a failed `assert`. -/
def assertionError : String := "AssertionError"

/-- The Python exception class raised by a failed tuple unpacking or a
failed `int(...)` conversion. -/
def valueError : String := "ValueError"

/-- `TRUE` as a character list. -/
def trueChars : List Char := "TRUE".data

/-- `FALSE` as a character list. -/
def falseChars : List Char := "FALSE".data

/-- A filter clause value: Python keeps the clause value as the raw string
unless `_build_filter` replaced it by a boolean. -/
inductive FilterVal where
  | str (s : List Char)
  | bool (b : Bool)
deriving DecidableEq

/-- A Python attribute value as seen by `ObjectFilter.ok`. -/
inductive PyVal where
  | str (s : List Char)
  | bool (b : Bool)
  | int (n : Int)
  | dict (d : List (List Char × PyVal))

/-- `quickscan/common/filter.py`, `ObjectFilter._build_filter`, one loop
iteration per `kv_pair`.  The source runs `assert "=" in kv_pair`, then
`k, v = kv_pair.split('=')` (a `ValueError` unless the split has exactly
two parts), then `assert k` and `assert v`; a value whose upper case form
is `TRUE` or `FALSE` is replaced by the boolean value of the very
containment test just checked (which is therefore always `true`). -/
def buildFilterAux : List (List Char) → List (List Char × FilterVal) →
    Except String (List (List Char × FilterVal))
  | [], filters => .ok filters
  | kvPair :: rest, filters =>
    if '=' ∈ kvPair then
      match pySplit '=' kvPair with
      | [k, v] =>
        if k = [] then .error assertionError
        else if v = [] then .error assertionError
        else
          let value :=
            if pyUpper v = trueChars ∨ pyUpper v = falseChars then
              FilterVal.bool (decide (pyUpper v = trueChars ∨ pyUpper v = falseChars))
            else FilterVal.str v
          buildFilterAux rest (dictInsert k value filters)
      | _ => .error valueError
    else .error assertionError

/-- `ObjectFilter.__init__` / `_build_filter`: split the filter string on
commas and process each clause in order, starting from the empty dict. -/
def buildFilter (kv : List Char) : Except String (List (List Char × FilterVal)) :=
  buildFilterAux (pySplit ',' kv) []

/-- Python `val != v` as evaluated inside `ObjectFilter.ok`: `val` is the
resolved attribute value (`none` models Python `None`, returned by
`a.get(subkey, None)` for an absent subkey) and `v` is the clause value.
Python booleans compare equal to the integers 0 and 1. -/
def pyNe (val : Option PyVal) (v : FilterVal) : Bool :=
  match val, v with
  | some (.str s), .str t => decide (s ≠ t)
  | some (.bool a), .bool b => decide (a ≠ b)
  | some (.int n), .bool b => decide (n ≠ (if b then 1 else 0))
  | _, _ => true

/-- `ObjectFilter.ok`, one loop iteration per filter clause, over an object
modelled as an attribute dict.  A key with a `/` is unpacked by
`key, subkey = k.split('/')` (a `ValueError` unless exactly two parts); a
key the object lacks is ignored; a subkey lookup on a non-dict attribute
is skipped; otherwise a value mismatch returns `False` immediately. -/
def okAux (obj : List (List Char × PyVal)) :
    List (List Char × FilterVal) → Except String Bool
  | [] => .ok true
  | (k, v) :: rest =>
    let keySub : Except String (List Char × Option (List Char)) :=
      if '/' ∈ k then
        match pySplit '/' k with
        | [key, sub] => .ok (key, some sub)
        | _ => .error valueError
      else .ok (k, none)
    match keySub with
    | .error e => .error e
    | .ok (key, sub) =>
      match pyGet key obj with
      | none => okAux obj rest
      | some a =>
        match sub with
        | some sk =>
          match a with
          | .dict d => if pyNe (pyGet sk d) v then .ok false else okAux obj rest
          | _ => okAux obj rest
        | none => if pyNe (some a) v then .ok false else okAux obj rest

/-- `ObjectFilter.ok` applied to a whole parsed filter. -/
def filterOk (filters : List (List Char × FilterVal))
    (obj : List (List Char × PyVal)) : Except String Bool :=
  okAux obj filters

/-! ### `quickscan/common/utils.py`: `read_file` and Python primitives -/

/-- The characters Python `str.strip()` removes. -/
def isPySpace (c : Char) : Bool := c.toNat ∈ [32, 9, 10, 13, 11, 12]

/-- Model of Python `s.strip()`. -/
def pyStrip (s : List Char) : List Char :=
  ((s.dropWhile isPySpace).reverse.dropWhile isPySpace).reverse

/-- Numeric value of a digit string. -/
def digitsToNat (ds : List Char) : Nat :=
  ds.foldl (fun acc c => acc * 10 + (c.toNat - 48)) 0

/-- Model of Python `int(s)` on a string: strips whitespace, accepts an
optional sign followed by one or more digits, otherwise raises
`ValueError` (modelled as `none`). -/
def pyInt (s : List Char) : Option Int :=
  match pyStrip s with
  | '-' :: ds =>
    if ds ≠ [] ∧ ds.all Char.isDigit then some (-(digitsToNat ds : Int)) else none
  | '+' :: ds =>
    if ds ≠ [] ∧ ds.all Char.isDigit then some ((digitsToNat ds : Int)) else none
  | ds =>
    if ds ≠ [] ∧ ds.all Char.isDigit then some ((digitsToNat ds : Int)) else none

/-- `utils.read_file`: a missing file yields the sentinel `unknown`, an
existing file yields its stripped text.  The sysfs tree is modelled as a
partial map from the attribute path to raw file contents. -/
def readFile (env : String → Option (List Char)) (fname : String) : List Char :=
  match env fname with
  | some contents => pyStrip contents
  | none => "unknown".data

/-- Model of `os.path.basename` at character level: the text after the
last slash. -/
def charsBasename (l : List Char) : List Char :=
  (l.reverse.takeWhile (fun c => c ≠ '/')).reverse

/-- Model of `os.path.basename` on an opaque path string. -/
def osBasename (p : String) : String := String.mk (charsBasename p.data)

/-! ### `quickscan/quickscan/devices.py`: `BaseDevice._process_sysfs` -/

/-- `BaseDevice._device_attributes`. -/
def deviceAttributes : List String :=
  ["removable", "size", "ro", "device/model", "device/vendor", "device/wwid",
   "device/vpd_pg80", "device/rev", "queue/nr_requests", "queue/rotational",
   "queue/scheduler", "queue/discard_granularity"]

/-- A `sys_api` value.  `hrs` stands for the string produced by
`human_readable_size`; its floating-point formatting is not modelled, so
the constructor records the byte count it was applied to. -/
inductive SysVal where
  | str (s : List Char)
  | int (n : Int)
  | hrs (bytes : Int)
deriving DecidableEq

/-- The characters of Python `string.printable`. -/
def isPrintable (c : Char) : Bool :=
  (32 ≤ c.toNat && c.toNat ≤ 126) || c.toNat ∈ [9, 10, 13, 11, 12]

/-- The scheduler post-processing: keep the bracket-delimited active
option of a space-separated option list, with the brackets stripped; if
no option is bracketed the raw content is kept. -/
def extractScheduler (content : List Char) : List Char :=
  let active := ((pySplit ' ' content).filter
      (fun opt => opt.head? = some '[')).map (fun opt => (opt.drop 1).dropLast)
  match active with
  | [] => content
  | a :: _ => a

/-- One iteration of the attribute loop in `BaseDevice._process_sysfs`.
In the `size` branch the source computes `int(content)` and
`int(logical_size)` on lines that sit before (outside) its
`try`/`except ValueError` block, so a non-numeric text raises out of the
reader; by the time the guarded product is evaluated both conversions
have already succeeded and the `except` fallback to 0 is unreachable. -/
def processSysfsStep (env : String → Option (List Char))
    (sysApi : List (String × SysVal)) (attrib : String) :
    Except String (List (String × SysVal)) :=
  let content := readFile env attrib
  let key := osBasename attrib
  if key = "size" then
    let logicalSize := readFile env ("queue/logical_block_size")
    match pyInt content with
    | none => .error valueError
    | some sectors =>
      match pyInt logicalSize with
      | none => .error valueError
      | some sectorsize =>
        let sysApi := dictInsert ("sectors") (SysVal.int sectors) sysApi
        let sysApi := dictInsert ("sectorsize") (SysVal.int sectorsize) sysApi
        let bytes : Int :=
          match pyInt logicalSize, pyInt content with
          | some ls, some ct => ls * ct
          | _, _ => 0
        let sysApi := dictInsert ("human_readable_size") (SysVal.hrs bytes) sysApi
        .ok (dictInsert key (SysVal.int bytes) sysApi)
  else if key = "scheduler" then
    .ok (dictInsert key (SysVal.str (extractScheduler content)) sysApi)
  else if key = "vpd_pg80" then
    .ok (dictInsert ("serial") (SysVal.str (content.filter isPrintable)) sysApi)
  else
    .ok (dictInsert key (SysVal.str content) sysApi)

/-- `BaseDevice._process_sysfs`: process the fixed attribute list in
order, building `sys_api`; the first exception aborts the reader. -/
def processSysfs (env : String → Option (List Char)) :
    Except String (List (String × SysVal)) :=
  deviceAttributes.foldlM (processSysfsStep env) []

/-! ### `Device` rejection checks -/

/-- `BaseDevice._min_osd_size_bytes`. -/
def minOsdSizeBytes : Int := 10737418240

/-- The size rejection message; `human_readable_size(10737418240)`
evaluates to the string `10.00 GB`. -/
def sizeRejectReason : String := "Device too small (< 10.00 GB)"

/-- The slice of a `Device` object that the four local checks read and
write, together with the host facts they consult. -/
structure DevState where
  devNode : String
  mpathNode : String
  mpathDevice : String
  sizeBytes : Int
  hasPartitions : Bool
  pvDevices : List String
  locked : Bool
  reasons : List String
deriving DecidableEq

/-- `Device._check_size`: reject when the byte size is strictly below
the 10 GiB threshold. -/
def checkSize (st : DevState) : DevState :=
  if st.sizeBytes < minOsdSizeBytes then
    {st with reasons := st.reasons ++ [sizeRejectReason]}
  else st

/-- `Device._check_partitions`. -/
def checkPartitions (st : DevState) : DevState :=
  if st.hasPartitions then {st with reasons := st.reasons ++ ["Has partitions"]}
  else st

/-- `Device._check_LVM`: the raw node name or the multipath node name
being a physical volume rejects the device. -/
def checkLVM (st : DevState) : DevState :=
  if [st.devNode, st.mpathNode].any (fun n => st.pvDevices.contains n) then
    {st with reasons := st.reasons ++ ["LVM device"]}
  else st

/-- `Device._check_locked`: skipped when already rejected or multipath
backed, otherwise an exclusive-open failure rejects the device. -/
def checkLocked (st : DevState) : DevState :=
  if st.reasons ≠ [] then st
  else if st.mpathDevice ≠ "" then st
  else if st.locked then {st with reasons := st.reasons ++ ["Locked"]}
  else st

/-- `Device.analyse`: the fixed check order. -/
def analyse (st : DevState) : DevState :=
  checkLocked (checkLVM (checkPartitions (checkSize st)))

/-- `Device.available`: a device with any reject reason is unavailable. -/
def available (reasons : List String) : Bool :=
  if reasons ≠ [] then false else true

/-! ### `BaseDevice._detect_mpath` -/

/-- `BaseDevice._detect_mpath`: walk the holder links in order and, for
each holder present in the multipath member map, overwrite the recorded
alias and node (the loop has no break). -/
def detectMpath (holders : List String) (mpathMap : List (String × String)) :
    String × String :=
  holders.foldl
    (fun acc holderPath =>
      let dev := osBasename holderPath
      match pyGet dev mpathMap with
      | some aliasName => (aliasName, dev)
      | none => acc)
    ((""), (""))

/-! ### `Devices._build_lv_device_map`: dm-name link decoding -/

/-- Model of Python `s.replace('--', '*')`: non-overlapping, left to
right. -/
def replaceDD : List Char → List Char
  | [] => []
  | [c] => [c]
  | a :: b :: rest =>
    if a = '-' ∧ b = '-' then '*' :: replaceDD rest
    else a :: replaceDD (b :: rest)

/-- Model of `s.replace('*', '-')` restoring literal dashes. -/
def unstar (c : Char) : Char := if c = '*' then '-' else c

/-- The per-character effect of the doubled-dash substitution on an
escaped segment: a literal dash becomes the sentinel star. -/
def starDash (c : Char) : Char := if c = '-' then '*' else c

/-- One iteration of `Devices._build_lv_device_map`: substitute the
doubled-dash escape, take the basename, split on single dashes, require
exactly 4 components, and restore the literal dashes in the vg and lv
segments.  `none` models the logged skip. -/
def decodeDmLink (linkName : List Char) : Option (List Char × List Char) :=
  let link := charsBasename (replaceDD linkName)
  let components := pySplit '-' link
  if components.length ≠ 4 then none
  else some ((components.getD 2 []).map unstar, (components.getD 3 []).map unstar)

/-- The fold step of `Devices._build_lv_device_map` over the
`(link_name, target)` pairs returned by `get_link_data`. -/
def buildLvMapStep (m : List (String × (List Char × List Char)))
    (lt : List Char × String) : List (String × (List Char × List Char)) :=
  match decodeDmLink lt.1 with
  | none => m
  | some vglv => dictInsert lt.2 vglv m

/-- `Devices._build_lv_device_map`. -/
def buildLvDeviceMap (links : List (List Char × String)) :
    List (String × (List Char × List Char)) :=
  links.foldl buildLvMapStep []

/-- The doubled-dash escape a dm-name link applies to a name segment
containing literal dashes. -/
def escapeDashes (s : List Char) : List Char :=
  (s.map (fun c => if c = '-' then ['-', '-'] else [c])).flatten

/-- The directory prefix of the dm-name identity links,
`/dev/disk/by-id/`, as characters. -/
def byIdDir : List Char :=
  ['/', 'd', 'e', 'v', '/', 'd', 'i', 's', 'k', '/', 'b', 'y', '-', 'i', 'd', '/']

/-- The `dm-name-` head of a device-mapper name link. -/
def dmNameHead : List Char := ['d', 'm', '-', 'n', 'a', 'm', 'e', '-']

/-- A full dm-name link path encoding the given vg and lv names with the
doubled-dash escape. -/
def encodeDmLink (vg lv : List Char) : List Char :=
  byIdDir ++ dmNameHead ++ escapeDashes vg ++ '-' :: escapeDashes lv

/-! ### `Devices._build_devices`: enumeration and deduplication -/

/-- The slice of a device record that `Devices._build_devices` touches:
the OS name it was created from, the alternate path recorded for a
duplicate identity, whether `analyse` (the eligibility checks) ran on
it, and its `device_id` identity key. -/
structure DRecord where
  devNode : String
  altPath : String
  analysed : Bool
  deviceId : String
deriving DecidableEq

/-- One iteration of the enumeration loop in `Devices._build_devices`:
a candidate whose identity is already registered only sets the existing
record's alternate path (no new record, no checks); otherwise a new
record is appended, analysed unless analysis is globally skipped. -/
def buildDevicesStep (identity : String → String) (skipAnalysis : Bool)
    (st : List DRecord) (devNode : String) : List DRecord :=
  let id := identity devNode
  if st.any (fun r => r.deviceId = id) then
    st.map (fun r =>
      if r.deviceId = id then {r with altPath := "/dev/" ++ devNode} else r)
  else
    st ++ [⟨devNode, "", !skipAnalysis, id⟩]

/-- `Devices._build_devices` over the candidate names in enumeration
order. -/
def buildDevices (identity : String → String) (skipAnalysis : Bool)
    (names : List String) : List DRecord :=
  names.foldl (buildDevicesStep identity skipAnalysis) []

/-! ### `Devices._check_signatures`: batched signature scan -/

/-- Python slicing `paths[i:i+k]` for `i in range(0, len(paths), k)`:
the list cut into consecutive groups of `k` (the last group may be
shorter).  Faithful to the source for `k ≥ 1`; `range` with step 0
raises in Python, so `k = 0` never reaches the slicing. -/
def chunks {α : Type} (k : Nat) : List α → List (List α)
  | [] => []
  | x :: xs => (x :: xs.take (k - 1)) :: chunks k (xs.drop (k - 1))
termination_by l => l.length
decreasing_by simp [List.length_drop]; omega

/-- `Device.path` (via `BaseDevice.path`): the multipath alias when one
was detected, else the raw `/dev` path. -/
def devPath (st : DevState) : String :=
  if st.mpathDevice ≠ "" then st.mpathDevice else "/dev/" ++ st.devNode

/-- The sorted list of paths of still-available devices that
`Devices._check_signatures` probes. -/
def eligiblePaths (devs : List DevState) : List String :=
  (((devs.filter (fun d => available d.reasons)).map devPath).mergeSort
    (fun a b => decide (a ≤ b)))

/-- The batched `wipefs` command lines built by
`Devices._check_signatures`, one per disk group. -/
def signatureScanCmds (devs : List DevState) (groupSize : Nat) : List String :=
  (chunks groupSize (eligiblePaths devs)).map
    (fun ps => "wipefs -J --noheadings " ++ String.intercalate (" ") ps)

/-- One completed probe: the exit code, and the parsed `signatures`
records `(device, type)` of its JSON output (`none` models empty
stdout). -/
structure Completion where
  returncode : Int
  stdout : Option (List (String × String))
deriving DecidableEq

/-- The per-batch accumulation of detected signature types per device
name.  Python uses a set; the model keeps first-insertion order. -/
def buildSigMap (sigs : List (String × String)) : List (String × List String) :=
  sigs.foldl
    (fun m sig =>
      match pyGet sig.1 m with
      | some types =>
        dictInsert sig.1 (if types.contains sig.2 then types else types ++ [sig.2]) m
      | none => dictInsert sig.1 [sig.2] m)
    []

/-- The name `Devices._check_signatures` looks up in the signature map:
the raw node, or the basename of the multipath alias. -/
def checkName (d : DevState) : String :=
  if d.mpathDevice = "" then d.devNode else osBasename d.mpathDevice

/-- Processing of one completed batch: a non-zero exit is logged and
skipped; otherwise every device whose check name carries signatures gets
a rejection reason appended. -/
def processCompletion (devs : List DevState) (c : Completion) : List DevState :=
  if c.returncode ≠ 0 then devs
  else
    match c.stdout with
    | none => devs
    | some sigs =>
      let sigMap := buildSigMap sigs
      devs.map (fun d =>
        match pyGet (checkName d) sigMap with
        | some types =>
          {d with reasons := d.reasons ++ [String.intercalate (",") types ++ " detected"]}
        | none => d)

/-- The result-merging loop of `Devices._check_signatures` over all
completions. -/
def processSignatureResults (devs : List DevState) (cs : List Completion) :
    List DevState :=
  cs.foldl processCompletion devs

/-- The Python exception class raised when a call omits a required
positional argument. -/
def typeError : String := "TypeError"

/-- `Devices._check_signatures`, whole control flow.  The available
device paths are gathered and sorted; an empty list returns early with
no probe issued.  Otherwise the batched `wipefs` command lines are
built, and the source then runs
`data = async_run(concurrent_cmds(disk_groups))` — but
`concurrent_cmds` in `quickscan/common/concurrent.py` takes the two
required positional arguments `(func, cmd_list)`, so this call raises
`TypeError` at argument binding, before any probe is issued; the merge
loop modelled by `processSignatureResults` is never reached. -/
def checkSignatures (devs : List DevState) (groupSize : Nat) :
    Except String (List DevState) :=
  let devPaths := eligiblePaths devs
  if devPaths = [] then .ok devs
  else
    let _diskGroups := signatureScanCmds devs groupSize
    .error typeError

/-! ## Theorems -/

/-- C1: the claim fails on the code.  With the sysfs `size` file missing,
`read_file` returns the sentinel `unknown`, and `_process_sysfs` then
raises `ValueError` from `int('unknown')` on the line that precedes its
`try` block, instead of falling back to a byte size of 0. -/
theorem c1_missing_size_raises_value_error :
    readFile (fun _ => none) ("size") = "unknown".data ∧
    processSysfs (fun _ => none) = Except.error valueError :=
  ⟨rfl, rfl⟩

/-- C2: `_check_size` appends a rejection reason iff the byte size is
strictly below 10737418240; a device of exactly 10737418240 bytes gets
no size reason and one of 10737418239 bytes gets one. -/
theorem c2_size_check_strict_boundary :
    (∀ st : DevState, (checkSize st).reasons =
        st.reasons ++ (if st.sizeBytes < 10737418240 then [sizeRejectReason] else [])) ∧
    (checkSize ⟨"sda", "", "", 10737418240, false, [], false, []⟩).reasons = [] ∧
    (checkSize ⟨"sda", "", "", 10737418239, false, [], false, []⟩).reasons =
      [sizeRejectReason] := by
  refine ⟨fun st => ?_, rfl, rfl⟩
  by_cases h : st.sizeBytes < (10737418240 : Int)
  · simp [checkSize, minOsdSizeBytes, h]
  · simp [checkSize, minOsdSizeBytes, h]

/-- C5: the claim fails on the code.  `_build_filter` runs Python
`assert` statements, so a clause lacking `=`, or with an empty key or
value, raises `AssertionError` out of the constructor instead of
yielding an invalid filter. -/
theorem c5_malformed_filter_raises :
    buildFilter "abc".data = Except.error assertionError ∧
    buildFilter "=1".data = Except.error assertionError ∧
    buildFilter "a=".data = Except.error assertionError :=
  ⟨rfl, rfl, rfl⟩

/-- C6: the claim fails on the code.  `_build_filter` assigns
`v.upper() in ['TRUE', 'FALSE']`, which is `True` for the value
`false` as well, so the clause `b=false` parses to the boolean `True`
and does not match an object whose attribute `b` is the boolean
`False`. -/
theorem c6_false_value_coerces_to_true :
    buildFilter "b=false".data = Except.ok [("b".data, FilterVal.bool true)] ∧
    filterOk [("b".data, FilterVal.bool true)] [("b".data, PyVal.bool false)] =
      Except.ok false :=
  ⟨rfl, rfl⟩

/-- C7 counterexample: with two holder links both present in the
multipath member map, `_detect_mpath` records the alias and node of the
second (last) matching holder, not the first as claimed. -/
theorem c7_counterexample :
    detectMpath ["/sys/block/sda/holders/dm-0", "/sys/block/sda/holders/dm-1"]
        [("dm-0", "/dev/mapper/mpatha"), ("dm-1", "/dev/mapper/mpathb")] =
      ("/dev/mapper/mpathb", "dm-1") ∧
    ¬(detectMpath ["/sys/block/sda/holders/dm-0", "/sys/block/sda/holders/dm-1"]
        [("dm-0", "/dev/mapper/mpatha"), ("dm-1", "/dev/mapper/mpathb")] =
      ("/dev/mapper/mpatha", "dm-0")) := by
  exact ⟨rfl, by decide⟩

lemma checkSize_reasons_extend (st : DevState) :
    ∃ t, (checkSize st).reasons = st.reasons ++ t := by
  unfold checkSize
  split
  · exact ⟨[sizeRejectReason], rfl⟩
  · exact ⟨[], (List.append_nil _).symm⟩

lemma checkPartitions_reasons_extend (st : DevState) :
    ∃ t, (checkPartitions st).reasons = st.reasons ++ t := by
  unfold checkPartitions
  split
  · exact ⟨["Has partitions"], rfl⟩
  · exact ⟨[], (List.append_nil _).symm⟩

lemma checkLVM_reasons_extend (st : DevState) :
    ∃ t, (checkLVM st).reasons = st.reasons ++ t := by
  unfold checkLVM
  split
  · exact ⟨["LVM device"], rfl⟩
  · exact ⟨[], (List.append_nil _).symm⟩

lemma checkLocked_reasons_extend (st : DevState) :
    ∃ t, (checkLocked st).reasons = st.reasons ++ t := by
  unfold checkLocked
  split
  · exact ⟨[], (List.append_nil _).symm⟩
  · split
    · exact ⟨[], (List.append_nil _).symm⟩
    · split
      · exact ⟨["Locked"], rfl⟩
      · exact ⟨[], (List.append_nil _).symm⟩

lemma analyse_reasons_extend (st : DevState) :
    ∃ t, (analyse st).reasons = st.reasons ++ t := by
  obtain ⟨t₁, h₁⟩ := checkSize_reasons_extend st
  obtain ⟨t₂, h₂⟩ := checkPartitions_reasons_extend (checkSize st)
  obtain ⟨t₃, h₃⟩ := checkLVM_reasons_extend (checkPartitions (checkSize st))
  obtain ⟨t₄, h₄⟩ :=
    checkLocked_reasons_extend (checkLVM (checkPartitions (checkSize st)))
  refine ⟨t₁ ++ t₂ ++ t₃ ++ t₄, ?_⟩
  simp [analyse, h₄, h₃, h₂, h₁, List.append_assoc]

/-- C9: a record is available iff its reason list is empty; each of the
four local checks only appends to the reason list, as does the whole
`analyse` pass; hence running the checks a second time never yields
fewer reasons than the first run. -/
theorem c9_available_iff_empty_and_append_only :
    (∀ reasons : List String, available reasons = true ↔ reasons = []) ∧
    (∀ st : DevState,
      (∃ t, (checkSize st).reasons = st.reasons ++ t) ∧
      (∃ t, (checkPartitions st).reasons = st.reasons ++ t) ∧
      (∃ t, (checkLVM st).reasons = st.reasons ++ t) ∧
      (∃ t, (checkLocked st).reasons = st.reasons ++ t) ∧
      (∃ t, (analyse st).reasons = st.reasons ++ t)) ∧
    (∀ st : DevState,
      ((analyse st).reasons).length ≤ ((analyse (analyse st)).reasons).length) := by
  refine ⟨?_, ?_, ?_⟩
  · intro r
    cases r <;> simp [available]
  · intro st
    exact ⟨checkSize_reasons_extend st, checkPartitions_reasons_extend st,
      checkLVM_reasons_extend st, checkLocked_reasons_extend st,
      analyse_reasons_extend st⟩
  · intro st
    obtain ⟨t, h⟩ := analyse_reasons_extend (analyse st)
    rw [h]
    simp

lemma detectMpath_foldl_last (m : List (String × String)) :
    ∀ (holders : List String) (acc : String × String),
      List.foldl
        (fun acc holderPath =>
          let dev := osBasename holderPath
          match pyGet dev m with
          | some aliasName => (aliasName, dev)
          | none => acc) acc holders =
        match (holders.filter (fun h => (pyGet (osBasename h) m).isSome)).getLast? with
        | none => acc
        | some h => ((pyGet (osBasename h) m).getD "", osBasename h) := by
  intro holders
  induction holders with
  | nil => intro acc; rfl
  | cons h t ih =>
    intro acc
    simp only [List.foldl_cons, List.filter_cons]
    cases hm : pyGet (osBasename h) m with
    | some a =>
      rw [if_pos (by simp [hm])]
      simp only [hm]
      rw [ih]
      cases ht : t.filter (fun x => (pyGet (osBasename x) m).isSome) with
      | nil => simp [hm]
      | cons x xs =>
        rw [List.getLast?_cons_cons]
        cases hg : (x :: xs).getLast? with
        | none => simp at hg
        | some y => rfl
    | none =>
      rw [if_neg (by simp [hm])]
      simp only [hm]
      exact ih acc

/-- C7 amended: when holder links appear in the multipath member map,
`_detect_mpath` records the alias and node of the last matching holder
in enumeration order (the loop overwrites without breaking); with no
matching holder both stay empty. -/
theorem c7_amended_last_matching_holder_wins :
    ∀ (holders : List String) (m : List (String × String)),
      detectMpath holders m =
        match (holders.filter (fun h => (pyGet (osBasename h) m).isSome)).getLast? with
        | none => ("", "")
        | some h => ((pyGet (osBasename h) m).getD "", osBasename h) := by
  intro holders m
  exact detectMpath_foldl_last m holders ("", "")

lemma buildDevicesStep_deviceId (identity : String → String) (skip : Bool)
    (st : List DRecord) (n : String) :
    (buildDevicesStep identity skip st n).map DRecord.deviceId =
      if identity n ∈ st.map DRecord.deviceId then st.map DRecord.deviceId
      else st.map DRecord.deviceId ++ [identity n] := by
  unfold buildDevicesStep
  by_cases h : identity n ∈ st.map DRecord.deviceId
  · rw [if_pos h]
    have hany : st.any (fun r => r.deviceId = identity n) = true := by
      simp only [List.any_eq_true, decide_eq_true_eq]
      obtain ⟨r, hr, hid⟩ := List.mem_map.mp h
      exact ⟨r, hr, hid⟩
    simp only [hany, if_true, List.map_map]
    apply List.map_congr_left
    intro r _
    by_cases hr : r.deviceId = identity n <;> simp [hr]
  · rw [if_neg h]
    have hany : st.any (fun r => r.deviceId = identity n) = false := by
      simp only [List.any_eq_false, decide_eq_true_eq]
      intro r hr hid
      exact h (List.mem_map.mpr ⟨r, hr, hid⟩)
    simp [hany]

lemma buildDevices_foldl_aux (identity : String → String) (skip : Bool) :
    ∀ (names : List String) (st : List DRecord),
      ((st.map DRecord.deviceId).Nodup →
        ((List.foldl (buildDevicesStep identity skip) st names).map
          DRecord.deviceId).Nodup) ∧
      (∀ id, id ∈ (List.foldl (buildDevicesStep identity skip) st names).map
          DRecord.deviceId ↔
        id ∈ st.map DRecord.deviceId ∨ id ∈ names.map identity) := by
  intro names
  induction names with
  | nil =>
    intro st
    exact ⟨fun h => h, by simp⟩
  | cons n ns ih =>
    intro st
    simp only [List.foldl_cons]
    constructor
    · intro hnd
      apply (ih (buildDevicesStep identity skip st n)).1
      rw [buildDevicesStep_deviceId]
      split
      · exact hnd
      · next hnotin =>
        simp [List.nodup_append, hnd, hnotin]
    · intro id
      rw [(ih (buildDevicesStep identity skip st n)).2, buildDevicesStep_deviceId]
      split
      · next hmem =>
        simp only [List.map_cons, List.mem_cons]
        constructor
        · rintro (h1 | h2)
          · exact Or.inl h1
          · exact Or.inr (Or.inr h2)
        · rintro (h1 | rfl | h3)
          · exact Or.inl h1
          · exact Or.inl hmem
          · exact Or.inr h3
      · simp [List.mem_append, or_assoc]

/-- C3: after enumeration the registry holds exactly one record per
distinct device identity (the identity list is duplicate-free and covers
exactly the identities of the enumerated names); a name whose identity
is already registered only sets the existing record's alternate path —
it adds no record, changes no other field (in particular not the
analysed flag, so no eligibility checks run for it). -/
theorem c3_registry_one_record_per_identity :
    ∀ (identity : String → String) (skip : Bool) (names : List String),
      ((buildDevices identity skip names).map DRecord.deviceId).Nodup ∧
      (∀ id, id ∈ (buildDevices identity skip names).map DRecord.deviceId ↔
        id ∈ names.map identity) ∧
      (∀ (st : List DRecord) (devNode : String),
        identity devNode ∈ st.map DRecord.deviceId →
          (buildDevicesStep identity skip st devNode).map
              (fun r => (r.devNode, r.analysed, r.deviceId)) =
            st.map (fun r => (r.devNode, r.analysed, r.deviceId)) ∧
          (∀ r ∈ buildDevicesStep identity skip st devNode,
            r.deviceId = identity devNode → r.altPath = "/dev/" ++ devNode)) := by
  intro identity skip names
  refine ⟨(buildDevices_foldl_aux identity skip names []).1 (by simp), ?_, ?_⟩
  · intro id
    rw [show buildDevices identity skip names =
      List.foldl (buildDevicesStep identity skip) [] names from rfl]
    rw [(buildDevices_foldl_aux identity skip names []).2 id]
    simp
  · intro st devNode hmem
    have hany : st.any (fun r => r.deviceId = identity devNode) = true := by
      simp only [List.any_eq_true, decide_eq_true_eq]
      obtain ⟨r, hr, hid⟩ := List.mem_map.mp hmem
      exact ⟨r, hr, hid⟩
    constructor
    · unfold buildDevicesStep
      simp only [hany, if_true, List.map_map]
      apply List.map_congr_left
      intro r _
      by_cases hr : r.deviceId = identity devNode <;> simp [hr]
    · intro r hr hid
      unfold buildDevicesStep at hr
      simp only [hany, if_true] at hr
      obtain ⟨r₀, hr₀, heq⟩ := List.mem_map.mp hr
      by_cases h₀ : r₀.deviceId = identity devNode
      · rw [if_pos h₀] at heq
        rw [← heq]
      · rw [if_neg h₀] at heq
        rw [← heq] at hid
        exact absurd hid h₀

/-- Witness for C3: two names with the same identity leave one record,
and processing the duplicate changes no node, analysed flag or
identity. -/
theorem c3_registry_one_record_per_identity_witness :
    ((buildDevices (fun _ => "ACME_DISK_123") false ["sda", "sdb"]).map
        DRecord.deviceId).Nodup ∧
    (buildDevicesStep (fun _ => "ACME_DISK_123") false
        [⟨"sda", "", true, "ACME_DISK_123"⟩] "sdb").map
      (fun r => (r.devNode, r.analysed, r.deviceId)) =
      [("sda", true, "ACME_DISK_123")] := by
  have h := c3_registry_one_record_per_identity (fun _ => "ACME_DISK_123") false
    ["sda", "sdb"]
  refine ⟨h.1, ?_⟩
  have h3 := (h.2.2 [⟨"sda", "", true, "ACME_DISK_123"⟩] "sdb" (by simp)).1
  rw [h3]
  rfl

/-- C4: the claim fails on the code.  Whenever the eligible set is
non-empty, `_check_signatures` builds the batch command lines but then
calls `concurrent_cmds(disk_groups)` without the required `cmd_list`
argument, so a `TypeError` aborts the scan with zero probes issued,
whatever the batch size; only an empty eligible set avoids the crash,
through the early return that issues no probe either. -/
theorem c4_check_signatures_raises_type_error :
    (∀ (devs : List DevState) (k : Nat), eligiblePaths devs ≠ [] →
      checkSignatures devs k = Except.error typeError) ∧
    (∀ (devs : List DevState) (k : Nat), eligiblePaths devs = [] →
      checkSignatures devs k = Except.ok devs) := by
  constructor
  · intro devs k h
    simp [checkSignatures, h]
  · intro devs k h
    simp [checkSignatures, h]

/-- Witness for C4: one available 10 GiB device makes the scan raise
`TypeError`; with no eligible device it returns early unchanged. -/
theorem c4_check_signatures_raises_type_error_witness :
    checkSignatures [⟨"sda", "", "", 10737418240, false, [], false, []⟩] 10 =
      Except.error typeError ∧
    checkSignatures [] 10 = Except.ok [] := by
  have h := c4_check_signatures_raises_type_error
  refine ⟨h.1 [⟨"sda", "", "", 10737418240, false, [], false, []⟩] 10 ?_, h.2 [] 10 ?_⟩
  · simp [eligiblePaths, available, devPath, List.mergeSort_singleton]
  · simp [eligiblePaths, List.mergeSort_nil]

lemma pySplit_ne_nil (sep : Char) (l : List Char) : pySplit sep l ≠ [] := by
  cases l with
  | nil => simp [pySplit]
  | cons c cs =>
    unfold pySplit
    cases pySplit sep cs with
    | nil => simp
    | cons h t =>
      by_cases hc : c = sep <;> simp [hc]

lemma pySplit_no_sep (sep : Char) :
    ∀ (l : List Char), sep ∉ l → pySplit sep l = [l] := by
  intro l
  induction l with
  | nil => intro; rfl
  | cons c cs ih =>
    intro h
    have hc : ¬(c = sep) := fun e => h (e ▸ List.mem_cons_self c cs)
    have hcs : sep ∉ cs := fun m => h (List.mem_cons_of_mem _ m)
    unfold pySplit
    rw [ih hcs]
    simp [hc]

lemma pySplit_cons (sep c : Char) (cs : List Char) :
    pySplit sep (c :: cs) =
      match pySplit sep cs with
      | [] => [[]]
      | h :: t => if c = sep then [] :: h :: t else (c :: h) :: t := rfl

lemma pySplit_append_sep (sep : Char) :
    ∀ (m r : List Char), sep ∉ m →
      pySplit sep (m ++ sep :: r) = m :: pySplit sep r := by
  intro m
  induction m with
  | nil =>
    intro r _
    show pySplit sep (sep :: r) = [] :: pySplit sep r
    rw [pySplit_cons]
    cases hr : pySplit sep r with
    | nil => exact absurd hr (pySplit_ne_nil sep r)
    | cons h t => simp
  | cons c cs ih =>
    intro r hm
    have hc : ¬(c = sep) := fun e => hm (e ▸ List.mem_cons_self c cs)
    have hcs : sep ∉ cs := fun x => hm (List.mem_cons_of_mem _ x)
    show pySplit sep (c :: (cs ++ sep :: r)) = (c :: cs) :: pySplit sep r
    rw [pySplit_cons, ih r hcs]
    simp [hc]

lemma pyNe_none (v : FilterVal) : pyNe none v = true := by
  cases v <;> rfl

/-- C10: for a clause `key/subkey=value` against an object whose
attribute `key` is a mapping lacking `subkey`, the resolved value is
Python `None`, which differs from every clause value, so the predicate
returns false (the absent subkey vetoes); an absent top-level key, by
contrast, is ignored and the predicate stays true. -/
theorem c10_absent_subkey_vetoes :
    (∀ (key sub : List Char) (v : FilterVal) (d : List (List Char × PyVal))
        (obj : List (List Char × PyVal)),
      '/' ∉ key → '/' ∉ sub →
      pyGet key obj = some (PyVal.dict d) → pyGet sub d = none →
      filterOk [(key ++ '/' :: sub, v)] obj = Except.ok false) ∧
    (∀ (k : List Char) (v : FilterVal) (obj : List (List Char × PyVal)),
      '/' ∉ k → pyGet k obj = none →
      filterOk [(k, v)] obj = Except.ok true) := by
  constructor
  · intro key sub v d obj hkey hsub hobj hmiss
    have hmem : '/' ∈ key ++ '/' :: sub := by simp
    have hsplit : pySplit '/' (key ++ '/' :: sub) = [key, sub] := by
      rw [pySplit_append_sep _ _ _ hkey, pySplit_no_sep _ _ hsub]
    simp [filterOk, okAux, hmem, hsplit, hobj, hmiss, pyNe_none]
  · intro k v obj hk hobj
    simp [filterOk, okAux, hk, hobj]

/-- Witness for C10: clause `a/b=1` on an object whose `a` is an empty
mapping fails; clause `c=1` on an object without `c` passes. -/
theorem c10_absent_subkey_vetoes_witness :
    filterOk [("a".data ++ '/' :: "b".data, FilterVal.str "1".data)]
        [("a".data, PyVal.dict [])] = Except.ok false ∧
    filterOk [("c".data, FilterVal.str "1".data)] [] = Except.ok true := by
  have h := c10_absent_subkey_vetoes
  exact ⟨h.1 "a".data "b".data (FilterVal.str "1".data) [] [("a".data, PyVal.dict [])]
      (by decide) (by decide) rfl rfl,
    h.2 "c".data (FilterVal.str "1".data) [] (by decide) rfl⟩

lemma replaceDD_cons₂ (a b : Char) (l : List Char) (h : ¬(a = '-' ∧ b = '-')) :
    replaceDD (a :: b :: l) = a :: replaceDD (b :: l) := by
  rw [replaceDD]
  exact if_neg h

lemma replaceDD_dd (l : List Char) :
    replaceDD ('-' :: '-' :: l) = '*' :: replaceDD l := by
  rw [replaceDD]
  exact if_pos ⟨rfl, rfl⟩

lemma replaceDD_cons_ne (a : Char) (l : List Char) (h : ¬(a = '-')) :
    replaceDD (a :: l) = a :: replaceDD l := by
  cases l with
  | nil => rfl
  | cons b bs => exact replaceDD_cons₂ a b bs (fun hc => h hc.1)

lemma escapeDashes_cons_dash (s : List Char) :
    escapeDashes ('-' :: s) = '-' :: '-' :: escapeDashes s := by
  simp [escapeDashes]

lemma escapeDashes_cons_ne (c : Char) (s : List Char) (h : ¬(c = '-')) :
    escapeDashes (c :: s) = c :: escapeDashes s := by
  simp [escapeDashes, h]

lemma replaceDD_escape (s : List Char) :
    ∀ (rest : List Char),
      replaceDD (escapeDashes s ++ rest) = s.map starDash ++ replaceDD rest := by
  induction s with
  | nil => intro rest; rfl
  | cons c cs ih =>
    intro rest
    by_cases hc : c = '-'
    · subst hc
      rw [escapeDashes_cons_dash]
      simp only [List.cons_append]
      rw [replaceDD_dd, ih rest]
      simp [starDash]
    · rw [escapeDashes_cons_ne c cs hc]
      simp only [List.cons_append]
      rw [replaceDD_cons_ne c _ hc, ih rest]
      simp [starDash, hc]

lemma replaceDD_append_chain :
    ∀ (p : List Char) (c : Char) (l : List Char),
      List.Chain' (fun a b => ¬(a = '-' ∧ b = '-')) (p ++ [c]) →
      replaceDD (p ++ c :: l) = p ++ replaceDD (c :: l) := by
  intro p
  induction p with
  | nil => intro c l _; rfl
  | cons a p ih =>
    intro c l hch
    cases p with
    | nil =>
      have hr : ¬(a = '-' ∧ c = '-') := (List.chain'_cons.mp hch).1
      exact replaceDD_cons₂ a c l hr
    | cons b p' =>
      have hch' : List.Chain' (fun a b => ¬(a = '-' ∧ b = '-'))
          (a :: b :: (p' ++ [c])) := by simpa using hch
      obtain ⟨hab, htail⟩ := List.chain'_cons.mp hch'
      calc replaceDD ((a :: b :: p') ++ c :: l)
          = replaceDD (a :: b :: (p' ++ c :: l)) := by simp
        _ = a :: replaceDD (b :: (p' ++ c :: l)) :=
            replaceDD_cons₂ a b (p' ++ c :: l) hab
        _ = a :: replaceDD ((b :: p') ++ c :: l) := by simp
        _ = a :: ((b :: p') ++ replaceDD (c :: l)) := by
            rw [ih c l (by simpa using htail)]
        _ = (a :: b :: p') ++ replaceDD (c :: l) := by simp

lemma takeWhile_all_append_break {p : Char → Bool} :
    ∀ (m : List Char) (c : Char) (r : List Char),
      (∀ x ∈ m, p x = true) → p c = false →
      (m ++ c :: r).takeWhile p = m := by
  intro m
  induction m with
  | nil =>
    intro c r _ hc
    simp [List.takeWhile_cons, hc]
  | cons a m ih =>
    intro c r hm hc
    have ha : p a = true := hm a (by simp)
    simp only [List.cons_append, List.takeWhile_cons, ha, if_true]
    rw [ih c r (fun x hx => hm x (by simp [hx])) hc]

lemma charsBasename_byIdDir (q : List Char) (hq : '/' ∉ q) :
    charsBasename (byIdDir ++ q) = q := by
  unfold charsBasename
  rw [List.reverse_append]
  rw [show byIdDir.reverse =
    '/' :: ['d', 'i', '-', 'y', 'b', '/', 'k', 's', 'i', 'd', '/', 'v', 'e', 'd', '/']
    from rfl]
  rw [takeWhile_all_append_break q.reverse '/' _
    (fun x hx => by
      simp only [List.mem_reverse] at hx
      have hx' : ¬(x = '/') := fun e => hq (e ▸ hx)
      exact decide_eq_true hx') (by decide)]
  exact List.reverse_reverse q

lemma starDash_ne_dash (c : Char) : ¬(starDash c = '-') := by
  by_cases h : c = '-' <;> simp [starDash, h]

lemma dash_not_mem_map_starDash (s : List Char) : '-' ∉ s.map starDash := by
  intro h
  obtain ⟨c, _, hc⟩ := List.mem_map.mp h
  exact starDash_ne_dash c hc

lemma slash_not_mem_map_starDash (s : List Char) (h : '/' ∉ s) :
    '/' ∉ s.map starDash := by
  intro hm
  obtain ⟨c, hcs, hc⟩ := List.mem_map.mp hm
  by_cases hd : c = '-'
  · rw [hd] at hc
    simp [starDash] at hc
  · rw [show starDash c = c from by simp [starDash, hd]] at hc
    exact h (hc ▸ hcs)

lemma map_unstar_map_starDash (s : List Char) (h : '*' ∉ s) :
    (s.map starDash).map unstar = s := by
  rw [List.map_map]
  have hpt : ∀ c ∈ s, (unstar ∘ starDash) c = c := by
    intro c hc
    by_cases hd : c = '-'
    · simp [Function.comp, starDash, unstar, hd]
    · have hstar : ¬(c = '*') := fun e => h (e ▸ hc)
      simp [Function.comp, starDash, unstar, hd, hstar]
  calc s.map (unstar ∘ starDash) = s.map id := List.map_congr_left hpt
    _ = s := List.map_id s



/-- C8: decoding inverts the doubled-dash escape: a dm-name link built
from nonempty vg and lv segments (not starting with a dash, free of the
sentinel star and of slashes) decodes back to the original names with
their literal dashes restored; and a link that does not split into
exactly 4 components after the escape substitution contributes no map
entry. -/
theorem c8_dm_link_roundtrip_and_skip :
    (∀ (vg lv : List Char),
      vg ≠ [] → lv ≠ [] → vg.head? ≠ some '-' → lv.head? ≠ some '-' →
      '*' ∉ vg → '*' ∉ lv → '/' ∉ vg → '/' ∉ lv →
      decodeDmLink (encodeDmLink vg lv) = some (vg, lv)) ∧
    (∀ (link : List Char) (tgt : String)
        (m : List (String × (List Char × List Char))),
      (pySplit '-' (charsBasename (replaceDD link))).length ≠ 4 →
      buildLvMapStep m (link, tgt) = m) := by
  constructor
  · intro vg lv hvg hlv hvgh hlvh hvgs hlvs hvgsl hlvsl
    obtain ⟨cv, vg', rfl⟩ := List.exists_cons_of_ne_nil hvg
    obtain ⟨cl, lv', rfl⟩ := List.exists_cons_of_ne_nil hlv
    have hcv : ¬(cv = '-') := fun e => hvgh (by simp [e])
    have hcl : ¬(cl = '-') := fun e => hlvh (by simp [e])
    have hchain : List.Chain' (fun a b => ¬(a = '-' ∧ b = '-'))
        ((byIdDir ++ dmNameHead) ++ [cv]) := by
      rw [List.chain'_append]
      refine ⟨by simp [byIdDir, dmNameHead, List.chain'_cons], List.chain'_singleton cv, ?_⟩
      intro x hx y hy
      rw [show (byIdDir ++ dmNameHead).getLast? = some '-' from rfl] at hx
      simp only [Option.mem_def, Option.some_inj] at hx
      simp only [List.head?_cons, Option.mem_def, Option.some_inj] at hy
      subst hx; subst hy
      exact fun hc => hcv hc.2
    have hA : replaceDD (encodeDmLink (cv :: vg') (cl :: lv')) =
        (byIdDir ++ dmNameHead) ++
          ((cv :: vg').map starDash ++ '-' :: (cl :: lv').map starDash) := by
      have e1 : encodeDmLink (cv :: vg') (cl :: lv') =
          (byIdDir ++ dmNameHead) ++
            (cv :: (escapeDashes vg' ++ '-' :: escapeDashes (cl :: lv'))) := by
        unfold encodeDmLink
        rw [escapeDashes_cons_ne cv vg' hcv]
        simp
      rw [e1, replaceDD_append_chain _ cv _ hchain]
      have e2 : cv :: (escapeDashes vg' ++ '-' :: escapeDashes (cl :: lv')) =
          escapeDashes (cv :: vg') ++ '-' :: escapeDashes (cl :: lv') := by
        rw [escapeDashes_cons_ne cv vg' hcv]
        simp
      rw [e2, replaceDD_escape]
      congr 1
      have e3 : escapeDashes (cl :: lv') = cl :: escapeDashes lv' :=
        escapeDashes_cons_ne cl lv' hcl
      rw [e3, replaceDD_cons₂ '-' cl _ (fun hc => hcl hc.2), ← e3]
      have e4 : replaceDD (escapeDashes (cl :: lv')) = (cl :: lv').map starDash := by
        have h0 := replaceDD_escape (cl :: lv') []
        rw [List.append_nil] at h0
        rw [show replaceDD ([] : List Char) = [] from rfl, List.append_nil] at h0
        exact h0
      rw [e4]
    have hB : charsBasename (replaceDD (encodeDmLink (cv :: vg') (cl :: lv'))) =
        dmNameHead ++ ((cv :: vg').map starDash ++ '-' :: (cl :: lv').map starDash) := by
      rw [hA]
      rw [show (byIdDir ++ dmNameHead) ++
          ((cv :: vg').map starDash ++ '-' :: (cl :: lv').map starDash) =
          byIdDir ++ (dmNameHead ++
            ((cv :: vg').map starDash ++ '-' :: (cl :: lv').map starDash)) from by simp]
      apply charsBasename_byIdDir
      intro hmem
      simp only [dmNameHead, List.mem_append, List.mem_cons] at hmem
      rcases hmem with h1 | h2
      · simp at h1
      · rcases h2 with h3 | h4
        · exact slash_not_mem_map_starDash _ hvgsl h3
        · rcases h4 with h5 | h6
          · exact absurd h5 (by decide)
          · exact slash_not_mem_map_starDash _ hlvsl h6
    have hC : pySplit '-' (charsBasename (replaceDD (encodeDmLink (cv :: vg') (cl :: lv')))) =
        [['d', 'm'], ['n', 'a', 'm', 'e'],
          (cv :: vg').map starDash, (cl :: lv').map starDash] := by
      rw [hB]
      rw [show dmNameHead ++ ((cv :: vg').map starDash ++ '-' :: (cl :: lv').map starDash) =
          ['d', 'm'] ++ '-' :: (['n', 'a', 'm', 'e'] ++ '-' ::
            ((cv :: vg').map starDash ++ '-' :: (cl :: lv').map starDash)) from by
        simp [dmNameHead]]
      rw [pySplit_append_sep '-' ['d', 'm'] _ (by decide)]
      rw [pySplit_append_sep '-' ['n', 'a', 'm', 'e'] _ (by decide)]
      rw [pySplit_append_sep '-' ((cv :: vg').map starDash) _
        (dash_not_mem_map_starDash _)]
      rw [pySplit_no_sep '-' _ (dash_not_mem_map_starDash _)]
    simp only [decodeDmLink]
    rw [hC]
    simp only [List.length_cons, List.length_nil]
    rw [if_neg (by omega)]
    rw [show ([['d', 'm'], ['n', 'a', 'm', 'e'], (cv :: vg').map starDash,
        (cl :: lv').map starDash].getD 2 []) = (cv :: vg').map starDash from rfl]
    rw [show ([['d', 'm'], ['n', 'a', 'm', 'e'], (cv :: vg').map starDash,
        (cl :: lv').map starDash].getD 3 []) = (cl :: lv').map starDash from rfl]
    rw [map_unstar_map_starDash _ hvgs, map_unstar_map_starDash _ hlvs]
  · intro link tgt m h
    have hd : decodeDmLink link = none := by
      simp only [decodeDmLink]
      rw [if_pos h]
    simp only [buildLvMapStep]
    rw [hd]


/-- Witness for C8: a concrete round trip with literal dashes in both
segments, and a concrete non-LV link that is skipped. -/
theorem c8_dm_link_roundtrip_and_skip_witness :
    decodeDmLink (encodeDmLink "ceph-vg".data "osd--block-1".data) =
      some ("ceph-vg".data, "osd--block-1".data) ∧
    buildLvMapStep [] ("/dev/disk/by-id/dm-uuid-x".data, "dm-3") = [] := by
  have h := c8_dm_link_roundtrip_and_skip
  exact ⟨h.1 "ceph-vg".data "osd--block-1".data (by decide) (by decide) (by decide)
      (by decide) (by decide) (by decide) (by decide) (by decide),
    h.2 "/dev/disk/by-id/dm-uuid-x".data "dm-3" [] (by decide)⟩

end Quickscan
